import Mathlib

/-!
Shallow embedding of the `bolt-planar` bounding-box module (`box.py`) and its
utility functions (`util.py`).  Coordinates are modelled as rationals (exact
arithmetic with decidable order, standing in for the Python floats); distances,
which involve square roots, live in the reals.
-/

/-- Modelled from the spec: the external planar 2D point/vector type (spec
section 6), a pair of coordinates.  Only the fields and the Euclidean
point-to-point distance are used by the code under verification. -/
structure Vec2 where
  x : ℚ
  y : ℚ
deriving DecidableEq, Repr

/-- Modelled from the spec: the external point type's point-to-point
(Euclidean) distance operation, `Vec2.distance_to` of the planar library. -/
noncomputable def Vec2.distance_to (v p : Vec2) : ℝ :=
  Real.sqrt (((v.x - p.x : ℚ) : ℝ) ^ 2 + ((v.y - p.y : ℚ) : ℝ) ^ 2)

/-- The `BoundingBox` class of `box.py`: an axis-aligned rectangle described by
its minimum and maximum corner points (`self._min`, `self._max`). -/
structure BoundingBox where
  min_point : Vec2
  max_point : Vec2
deriving DecidableEq, Repr

/-- Error kinds of the spec's section 7 that the embedded code can signal.
`invalidInput` stands for the `ValueError` the Python raises. -/
inductive PlanarError where
  | invalidInput
deriving DecidableEq, Repr

/-- The ordering invariant of the data model (spec section 3):
`min_point.x ≤ max_point.x` and `min_point.y ≤ max_point.y`. -/
def BoundingBox.ordered (b : BoundingBox) : Prop :=
  b.min_point.x ≤ b.max_point.x ∧ b.min_point.y ≤ b.max_point.y

instance (b : BoundingBox) : Decidable b.ordered := by
  unfold BoundingBox.ordered; infer_instance

/-- The helper `BoundingBox._init_min_max` (box.py lines 50-74): unpacks the
points into coordinate arrays and takes the componentwise minimum and maximum.
On an empty collection the unpacking `xs, ys = array(points).T` raises
`ValueError` (the spec's `InvalidInput` error kind); on a nonempty one the
numpy reductions `xs.min()`, `ys.min()`, `xs.max()`, `ys.max()` are folds of
`min` and `max` over all coordinates. -/
def BoundingBox.init_min_max (points : List Vec2) : Except PlanarError BoundingBox :=
  match points with
  | [] => .error .invalidInput
  | p :: ps =>
      .ok { min_point := ⟨(ps.map Vec2.x).foldl min p.x, (ps.map Vec2.y).foldl min p.y⟩,
            max_point := ⟨(ps.map Vec2.x).foldl max p.x, (ps.map Vec2.y).foldl max p.y⟩ }

/-- The primary constructor `BoundingBox.__init__` and the alternate
constructor `BoundingBox.from_points` (box.py lines 47-48 and 130-136) both
delegate to `_init_min_max`. -/
def BoundingBox.from_points (points : List Vec2) : Except PlanarError BoundingBox :=
  BoundingBox.init_min_max points

/-- The accumulator loop of `BoundingBox.from_shapes` (box.py lines 152-162):
each further shape's bounding box lowers the running minima and raises the
running maxima componentwise. -/
def BoundingBox.from_shapes_loop (min_x min_y max_x max_y : ℚ) :
    List BoundingBox → BoundingBox
  | [] => ⟨⟨min_x, min_y⟩, ⟨max_x, max_y⟩⟩
  | s :: ss =>
      BoundingBox.from_shapes_loop
        (if s.min_point.x < min_x then s.min_point.x else min_x)
        (if s.min_point.y < min_y then s.min_point.y else min_y)
        (if s.max_point.x > max_x then s.max_point.x else max_x)
        (if s.max_point.y > max_y then s.max_point.y else max_y) ss

/-- The alternate constructor `BoundingBox.from_shapes` (box.py lines 138-166).
A shape is represented by its `bounding_box`, the only attribute the code
reads.  An empty collection raises `ValueError` (the spec's `InvalidInput`);
otherwise the first shape's corners seed the accumulator loop. -/
def BoundingBox.from_shapes (shapes : List BoundingBox) : Except PlanarError BoundingBox :=
  match shapes with
  | [] => .error .invalidInput
  | s :: ss =>
      .ok (BoundingBox.from_shapes_loop s.min_point.x s.min_point.y
            s.max_point.x s.max_point.y ss)

/-- The alternate constructor `BoundingBox.from_center` (box.py lines 168-185):
two synthesized corner points, offset by the half width and half height,
constructed via `from_points`. -/
def BoundingBox.from_center (center : Vec2) (width height : ℚ) :
    Except PlanarError BoundingBox :=
  let half_w := width * (0.5 : ℚ)
  let half_h := height * (0.5 : ℚ)
  BoundingBox.from_points
    [⟨center.x - half_w, center.y - half_h⟩, ⟨center.x + half_w, center.y + half_h⟩]

/-- The method `BoundingBox.inflate` (box.py lines 187-204).  The Python
accepts a scalar (both deltas equal) or a vector amount; both cases are the
instance `dx`, `dy` here.  `dv = Vec2(dx, dy) / 2.0` and the result is
`from_points([min - dv, max + dv])`. -/
def BoundingBox.inflate (b : BoundingBox) (dx dy : ℚ) : Except PlanarError BoundingBox :=
  let dvx := dx / 2
  let dvy := dy / 2
  BoundingBox.from_points
    [⟨b.min_point.x - dvx, b.min_point.y - dvy⟩, ⟨b.max_point.x + dvx, b.max_point.y + dvy⟩]

/-- The rectilinear branch of `BoundingBox.__mul__` (box.py lines 410-423):
`from_points([self._min * other, self._max * other])`.  The application of the
external rectilinear affine transform to a point is abstracted as the function
`f`; the invariant claim holds for every such function. -/
def BoundingBox.mul_rectilinear (b : BoundingBox) (f : Vec2 → Vec2) :
    Except PlanarError BoundingBox :=
  BoundingBox.from_points [f b.min_point, f b.max_point]

/-- The method `BoundingBox.contains_point` (box.py lines 206-215):
`self._min.x <= x < self._max.x and self._min.y < y <= self._max.y`, with the
Python chained comparisons unfolded to conjunctions. -/
def BoundingBox.contains_point (b : BoundingBox) (point : Vec2) : Bool :=
  (decide (b.min_point.x ≤ point.x) && decide (point.x < b.max_point.x)) &&
    (decide (b.min_point.y < point.y) && decide (point.y ≤ b.max_point.y))

/-- The method `BoundingBox.contains_points` (box.py lines 217-221): the
elementwise `logical_and` of the four elementwise comparison arrays, i.e. the
per-point boolean computed independently at every index. -/
def BoundingBox.contains_points (b : BoundingBox) (points : List Vec2) : List Bool :=
  points.map fun point =>
    (decide (b.min_point.x ≤ point.x) && decide (point.x < b.max_point.x)) &&
      (decide (b.min_point.y < point.y) && decide (point.y ≤ b.max_point.y))

/-- The method `BoundingBox.distance_to` (box.py lines 223-250): the nine-region
branch on `x < min.x`, `x <= max.x`, `y < min.y`, `y <= max.y`. -/
noncomputable def BoundingBox.distance_to (b : BoundingBox) (point : Vec2) : ℝ :=
  if point.x < b.min_point.x then
    if point.y < b.min_point.y then b.min_point.distance_to point
    else if point.y ≤ b.max_point.y then ((b.min_point.x - point.x : ℚ) : ℝ)
    else (Vec2.mk b.min_point.x b.max_point.y).distance_to point
  else if point.x ≤ b.max_point.x then
    if point.y < b.min_point.y then ((b.min_point.y - point.y : ℚ) : ℝ)
    else if point.y ≤ b.max_point.y then 0
    else ((point.y - b.max_point.y : ℚ) : ℝ)
  else
    if point.y < b.min_point.y then (Vec2.mk b.max_point.x b.min_point.y).distance_to point
    else if point.y ≤ b.max_point.y then ((point.x - b.max_point.x : ℚ) : ℝ)
    else b.max_point.distance_to point

/-- One element of the vectorized `BoundingBox.distance_to_points` (box.py
lines 298-307).  Per axis the two signed gaps `min - c` and `c - max` are
formed, `argmin` of their absolute values selects the one of smaller magnitude
(numpy's `argmin` returns the first index on a tie, i.e. the `min`-side gap),
negative selected gaps are clamped to zero, and the two axes are combined with
`hypot`. -/
noncomputable def BoundingBox.distance_to_points_elem (b : BoundingBox) (point : Vec2) : ℝ :=
  let xd0 := b.min_point.x - point.x
  let xd1 := point.x - b.max_point.x
  let yd0 := b.min_point.y - point.y
  let yd1 := point.y - b.max_point.y
  let xd := if |xd0| ≤ |xd1| then xd0 else xd1
  let yd := if |yd0| ≤ |yd1| then yd0 else yd1
  let xdc := if xd < 0 then 0 else xd
  let ydc := if yd < 0 then 0 else yd
  Real.sqrt ((xdc : ℝ) ^ 2 + (ydc : ℝ) ^ 2)

/-- The method `BoundingBox.distance_to_points` (box.py lines 298-307): every
step of the vectorized computation is elementwise, so the result is the map of
the per-element computation over the query points. -/
noncomputable def BoundingBox.distance_to_points (b : BoundingBox) (points : List Vec2) : List ℝ :=
  points.map (BoundingBox.distance_to_points_elem b)

/-- The function `counterclockwise` of `util.py` (lines 74-76).  The Python
assigns `ccw` the *boolean* result of the comparison
`(C.y-A.y)*(B.x-A.x) > (B.y-A.y)*(C.x-A.x)`; in the following numeric
comparisons that boolean is the number `1` (`True`) or `0` (`False`). -/
def counterclockwise (A B C : Vec2) : Int :=
  let ccw : ℚ := if (C.y - A.y) * (B.x - A.x) > (B.y - A.y) * (C.x - A.x) then 1 else 0
  if ccw > 0 then 1 else if ccw < 0 then -1 else 0

/-- Python's `%` operator on numbers (used elementwise by numpy):
`a % m = a - m * floor(a / m)`, so for `m > 0` the result lies in `[0, m)`. -/
def pymod (a m : ℚ) : ℚ := a - m * ⌊a / m⌋

/-- The function `signed_angle_diff` of `util.py` (lines 71-72):
`(x - y + 180) % 360 - 180`, per pair of scalars. -/
def signed_angle_diff (x y : ℚ) : ℚ := pymod (x - y + 180) 360 - 180

/-- The function `signed_angle_diff` of `util.py` applied to arrays: numpy
broadcasts the expression `(x - y + 180) % 360 - 180` elementwise. -/
def signed_angle_diff_elementwise (xs ys : List ℚ) : List ℚ :=
  List.zipWith (fun x y => pymod (x - y + 180) 360 - 180) xs ys

section HelperLemmas

lemma foldl_min_le_init (a : ℚ) (l : List ℚ) : l.foldl min a ≤ a := by
  induction l generalizing a with
  | nil => exact le_refl a
  | cons x xs ih =>
      calc (x :: xs).foldl min a = xs.foldl min (min a x) := rfl
        _ ≤ min a x := ih (min a x)
        _ ≤ a := min_le_left a x

lemma init_le_foldl_max (a : ℚ) (l : List ℚ) : a ≤ l.foldl max a := by
  induction l generalizing a with
  | nil => exact le_refl a
  | cons x xs ih =>
      calc a ≤ max a x := le_max_left a x
        _ ≤ xs.foldl max (max a x) := ih (max a x)
        _ = (x :: xs).foldl max a := rfl

lemma pymod_nonneg_lt (a m : ℚ) (hm : 0 < m) : 0 ≤ pymod a m ∧ pymod a m < m := by
  unfold pymod
  have h1 : (⌊a / m⌋ : ℚ) ≤ a / m := Int.floor_le _
  have h2 : a / m < ⌊a / m⌋ + 1 := Int.lt_floor_add_one _
  have h3 : (⌊a / m⌋ : ℚ) * m ≤ a := (le_div_iff₀ hm).mp h1
  have h4 : a < ((⌊a / m⌋ : ℚ) + 1) * m := (div_lt_iff₀ hm).mp h2
  constructor
  · nlinarith
  · nlinarith

end HelperLemmas

/-- C3: for every box `b` and point `p`, `contains_point` is true exactly when
`min.x ≤ p.x < max.x` and `min.y < p.y ≤ max.y` (the half-open convention,
asymmetric between the axes), and `contains_points` returns, at each index,
`contains_point` of the point at that index. -/
theorem contains_point_halfopen_and_batch :
    (∀ (b : BoundingBox) (p : Vec2),
      b.contains_point p = true ↔
        (b.min_point.x ≤ p.x ∧ p.x < b.max_point.x ∧
          b.min_point.y < p.y ∧ p.y ≤ b.max_point.y)) ∧
    (∀ (b : BoundingBox) (points : List Vec2),
      b.contains_points points = points.map b.contains_point) := by
  constructor
  · intro b p
    simp [BoundingBox.contains_point, and_assoc]
  · intro b points
    rfl

/-- C9: constructing a bounding box from an empty point collection — via the
primary constructor (`_init_min_max`) or `from_points` — or calling
`from_shapes` with an empty shape collection fails with the `InvalidInput`
error kind, and no box is produced. -/
theorem empty_construction_invalid_input :
    BoundingBox.init_min_max [] = .error .invalidInput ∧
    BoundingBox.from_points [] = .error .invalidInput ∧
    BoundingBox.from_shapes [] = .error .invalidInput ∧
    (∀ bx : BoundingBox, BoundingBox.init_min_max [] ≠ .ok bx) ∧
    (∀ bx : BoundingBox, BoundingBox.from_shapes [] ≠ .ok bx) := by
  refine ⟨rfl, rfl, rfl, ?_, ?_⟩ <;> intro bx h <;> exact Except.noConfusion h

/-- C5 (code evaluation): `counterclockwise` can never return `-1`, because the
Python variable `ccw` holds a boolean (`1` or `0` in numeric context), so the
`-1` branch is unreachable; in particular the clockwise triple
A = (0,0), B = (0,1), C = (1,0) yields `0`, not the `-1` the claim states,
while a counterclockwise triple still yields `1` and a collinear one `0`. -/
theorem counterclockwise_never_returns_minus_one :
    (∀ A B C : Vec2, counterclockwise A B C ≠ -1) ∧
    counterclockwise ⟨0, 0⟩ ⟨0, 1⟩ ⟨1, 0⟩ = 0 ∧
    counterclockwise ⟨0, 0⟩ ⟨1, 0⟩ ⟨0, 1⟩ = 1 ∧
    counterclockwise ⟨0, 0⟩ ⟨1, 1⟩ ⟨2, 2⟩ = 0 := by
  refine ⟨?_, by norm_num [counterclockwise], by norm_num [counterclockwise],
    by norm_num [counterclockwise]⟩
  intro A B C
  unfold counterclockwise
  by_cases h : (C.y - A.y) * (B.x - A.x) > (B.y - A.y) * (C.x - A.x) <;>
    simp [h]

/-- C6 (counterexample): at a = 180, b = 0 the code returns −180, which lies
outside the half-open range (−180, 180] the claim states. -/
theorem signed_angle_diff_not_in_left_open_range :
    signed_angle_diff 180 0 = -180 ∧
    ¬(-180 < signed_angle_diff 180 0 ∧ signed_angle_diff 180 0 ≤ 180) := by
  have hfloor : ⌊((180 : ℚ) - 0 + 180) / 360⌋ = 1 := by norm_num
  have hval : signed_angle_diff 180 0 = -180 := by
    unfold signed_angle_diff pymod
    rw [hfloor]
    norm_num
  exact ⟨hval, by rw [hval]; norm_num⟩

/-- C6 (amended): `signed_angle_diff a b` equals `((a − b + 180) mod 360) − 180`
with Python's nonnegative modulo, elementwise over arrays as well, and the
result lies in the half-open range [−180, 180) — closed at −180 and open at
180, not the reverse. -/
theorem signed_angle_diff_formula_and_range :
    (∀ a b : ℚ,
      signed_angle_diff a b = pymod (a - b + 180) 360 - 180 ∧
        -180 ≤ signed_angle_diff a b ∧ signed_angle_diff a b < 180) ∧
    (∀ xs ys : List ℚ,
      signed_angle_diff_elementwise xs ys = List.zipWith signed_angle_diff xs ys) := by
  constructor
  · intro a b
    have h := pymod_nonneg_lt (a - b + 180) 360 (by norm_num)
    refine ⟨rfl, ?_, ?_⟩
    · unfold signed_angle_diff; linarith [h.1]
    · unfold signed_angle_diff; linarith [h.2]
  · intro xs ys
    rfl

lemma init_min_max_ordered (points : List Vec2) (b : BoundingBox)
    (h : BoundingBox.init_min_max points = .ok b) : b.ordered := by
  cases points with
  | nil => exact absurd h (by simp [BoundingBox.init_min_max])
  | cons p ps =>
      simp only [BoundingBox.init_min_max] at h
      injection h with h
      subst h
      constructor
      · calc (ps.map Vec2.x).foldl min p.x ≤ p.x := foldl_min_le_init p.x _
          _ ≤ (ps.map Vec2.x).foldl max p.x := init_le_foldl_max p.x _
      · calc (ps.map Vec2.y).foldl min p.y ≤ p.y := foldl_min_le_init p.y _
          _ ≤ (ps.map Vec2.y).foldl max p.y := init_le_foldl_max p.y _

lemma from_shapes_loop_ordered (ss : List BoundingBox) :
    ∀ min_x min_y max_x max_y : ℚ, min_x ≤ max_x → min_y ≤ max_y →
      (BoundingBox.from_shapes_loop min_x min_y max_x max_y ss).ordered := by
  induction ss with
  | nil =>
      intro min_x min_y max_x max_y h1 h2
      exact ⟨h1, h2⟩
  | cons s ss ih =>
      intro min_x min_y max_x max_y h1 h2
      show (BoundingBox.from_shapes_loop _ _ _ _ ss).ordered
      apply ih
      · split_ifs <;> linarith
      · split_ifs <;> linarith

/-- C4: every bounding box produced by the primary constructor
(`_init_min_max`), `from_points`, `from_shapes` (given input boxes that
satisfy the invariant), `from_center`, `inflate` with any scalar or vector
amount (negative included), or the rectilinear branch of transform composition
satisfies `min_point.x ≤ max_point.x` and `min_point.y ≤ max_point.y` — every
one of these paths re-derives the corners via componentwise minimum/maximum
over the candidate points. -/
theorem box_invariant_all_constructors :
    (∀ (points : List Vec2) (b : BoundingBox),
        BoundingBox.init_min_max points = .ok b → b.ordered) ∧
    (∀ (points : List Vec2) (b : BoundingBox),
        BoundingBox.from_points points = .ok b → b.ordered) ∧
    (∀ (shapes : List BoundingBox) (b : BoundingBox),
        (∀ s ∈ shapes, s.ordered) →
        BoundingBox.from_shapes shapes = .ok b → b.ordered) ∧
    (∀ (center : Vec2) (width height : ℚ) (b : BoundingBox),
        BoundingBox.from_center center width height = .ok b → b.ordered) ∧
    (∀ (b0 : BoundingBox) (dx dy : ℚ) (b : BoundingBox),
        b0.inflate dx dy = .ok b → b.ordered) ∧
    (∀ (b0 : BoundingBox) (f : Vec2 → Vec2) (b : BoundingBox),
        b0.mul_rectilinear f = .ok b → b.ordered) := by
  refine ⟨init_min_max_ordered, ?_, ?_, ?_, ?_, ?_⟩
  · intro points b h
    exact init_min_max_ordered points b h
  · intro shapes b hinv h
    cases shapes with
    | nil => exact absurd h (by simp [BoundingBox.from_shapes])
    | cons s ss =>
        simp only [BoundingBox.from_shapes] at h
        injection h with h
        subst h
        have hs : s.ordered := hinv s (List.mem_cons_self s ss)
        exact from_shapes_loop_ordered ss _ _ _ _ hs.1 hs.2
  · intro center width height b h
    unfold BoundingBox.from_center BoundingBox.from_points at h
    exact init_min_max_ordered _ b h
  · intro b0 dx dy b h
    unfold BoundingBox.inflate BoundingBox.from_points at h
    exact init_min_max_ordered _ b h
  · intro b0 f b h
    unfold BoundingBox.mul_rectilinear BoundingBox.from_points at h
    exact init_min_max_ordered _ b h

/-- C4 witness: the invariant hypotheses are satisfiable at a concrete input —
a one-element shape collection whose box is ordered produces an ordered box. -/
theorem box_invariant_witness :
    (∀ s ∈ [(⟨⟨0, 0⟩, ⟨4, 3⟩⟩ : BoundingBox)], s.ordered) ∧
    BoundingBox.from_shapes [⟨⟨0, 0⟩, ⟨4, 3⟩⟩] = .ok ⟨⟨0, 0⟩, ⟨4, 3⟩⟩ ∧
    BoundingBox.ordered ⟨⟨0, 0⟩, ⟨4, 3⟩⟩ := by
  have h1 : ∀ s ∈ [(⟨⟨0, 0⟩, ⟨4, 3⟩⟩ : BoundingBox)], s.ordered := by
    intro s hs
    rw [List.mem_singleton] at hs
    subst hs
    exact ⟨by norm_num, by norm_num⟩
  have h2 : BoundingBox.from_shapes [⟨⟨0, 0⟩, ⟨4, 3⟩⟩] =
      .ok (⟨⟨0, 0⟩, ⟨4, 3⟩⟩ : BoundingBox) := rfl
  exact ⟨h1, h2, box_invariant_all_constructors.2.2.1 _ _ h1 h2⟩

/-- C1 (divergence at a concrete input): for the degenerate zero-width box
built from the single point (0,0), the batch operation `distance_to_points`
returns 0 for the query point (1,0) — numpy's `argmin` breaks the tie between
the two equal-magnitude x-gaps in favour of the `min`-side gap −1, which is
then clamped to 0 — while the scalar `distance_to` returns the true distance 1.
So the batch operation does not reproduce the scalar result at index 0. -/
theorem distance_to_points_diverges_on_degenerate_box :
    BoundingBox.init_min_max [⟨0, 0⟩] = .ok ⟨⟨0, 0⟩, ⟨0, 0⟩⟩ ∧
    BoundingBox.distance_to_points ⟨⟨0, 0⟩, ⟨0, 0⟩⟩ [⟨1, 0⟩] = [0] ∧
    BoundingBox.distance_to ⟨⟨0, 0⟩, ⟨0, 0⟩⟩ ⟨1, 0⟩ = 1 ∧
    BoundingBox.distance_to_points ⟨⟨0, 0⟩, ⟨0, 0⟩⟩ [⟨1, 0⟩] ≠
      [BoundingBox.distance_to ⟨⟨0, 0⟩, ⟨0, 0⟩⟩ ⟨1, 0⟩] := by
  have h1 : BoundingBox.distance_to_points ⟨⟨0, 0⟩, ⟨0, 0⟩⟩ [⟨1, 0⟩] = [0] := by
    simp only [BoundingBox.distance_to_points, BoundingBox.distance_to_points_elem,
      List.map_cons, List.map_nil]
    norm_num
  have h2 : BoundingBox.distance_to ⟨⟨0, 0⟩, ⟨0, 0⟩⟩ ⟨1, 0⟩ = 1 := by
    simp only [BoundingBox.distance_to]
    norm_num
  refine ⟨rfl, h1, h2, ?_⟩
  rw [h1, h2]
  simp

lemma rat_cast_pos {q : ℚ} (h : 0 < q) : (0 : ℝ) < (q : ℝ) := by exact_mod_cast h

lemma Vec2.distance_to_pos_of_x (a p : Vec2) (h : a.x ≠ p.x) : 0 < a.distance_to p := by
  unfold Vec2.distance_to
  apply Real.sqrt_pos.mpr
  have h1 : ((a.x - p.x : ℚ) : ℝ) ≠ 0 := by
    exact_mod_cast sub_ne_zero.mpr h
  nlinarith [pow_two_pos_of_ne_zero h1, sq_nonneg ((a.y - p.y : ℚ) : ℝ)]

lemma distance_to_eq_zero_iff (b : BoundingBox) (p : Vec2) :
    b.distance_to p = 0 ↔
      (b.min_point.x ≤ p.x ∧ p.x ≤ b.max_point.x ∧
       b.min_point.y ≤ p.y ∧ p.y ≤ b.max_point.y) := by
  unfold BoundingBox.distance_to
  by_cases h1 : p.x < b.min_point.x
  · rw [if_pos h1]
    by_cases h3 : p.y < b.min_point.y
    · rw [if_pos h3]
      refine iff_of_false (ne_of_gt (Vec2.distance_to_pos_of_x _ _ (ne_of_gt h1))) ?_
      intro hm
      exact absurd hm.1 (not_le.mpr h1)
    · rw [if_neg h3]
      by_cases h4 : p.y ≤ b.max_point.y
      · rw [if_pos h4]
        refine iff_of_false (ne_of_gt (rat_cast_pos (by linarith))) ?_
        intro hm
        exact absurd hm.1 (not_le.mpr h1)
      · rw [if_neg h4]
        refine iff_of_false (ne_of_gt (Vec2.distance_to_pos_of_x _ _ (ne_of_gt h1))) ?_
        intro hm
        exact absurd hm.1 (not_le.mpr h1)
  · rw [if_neg h1]
    by_cases h2 : p.x ≤ b.max_point.x
    · rw [if_pos h2]
      by_cases h3 : p.y < b.min_point.y
      · rw [if_pos h3]
        refine iff_of_false (ne_of_gt (rat_cast_pos (by linarith))) ?_
        intro hm
        exact absurd hm.2.2.1 (not_le.mpr h3)
      · rw [if_neg h3]
        by_cases h4 : p.y ≤ b.max_point.y
        · rw [if_pos h4]
          exact iff_of_true rfl ⟨le_of_not_lt h1, h2, le_of_not_lt h3, h4⟩
        · rw [if_neg h4]
          refine iff_of_false (ne_of_gt (rat_cast_pos (by linarith [lt_of_not_le h4]))) ?_
          intro hm
          exact absurd hm.2.2.2 h4
    · rw [if_neg h2]
      by_cases h3 : p.y < b.min_point.y
      · rw [if_pos h3]
        refine iff_of_false
          (ne_of_gt (Vec2.distance_to_pos_of_x _ _ (ne_of_lt (lt_of_not_le h2)))) ?_
        intro hm
        exact absurd hm.2.1 h2
      · rw [if_neg h3]
        by_cases h4 : p.y ≤ b.max_point.y
        · rw [if_pos h4]
          refine iff_of_false (ne_of_gt (rat_cast_pos (by linarith [lt_of_not_le h2]))) ?_
          intro hm
          exact absurd hm.2.1 h2
        · rw [if_neg h4]
          refine iff_of_false
            (ne_of_gt (Vec2.distance_to_pos_of_x _ _ (ne_of_lt (lt_of_not_le h2)))) ?_
          intro hm
          exact absurd hm.2.1 h2

/-- C10: `distance_to` returns 0 exactly on the closed rectangle
`min.x ≤ p.x ≤ max.x`, `min.y ≤ p.y ≤ max.y`; in particular (for an ordered
box) it returns 0 at the min and max corners, both of which `contains_point`
rejects under its half-open convention. -/
theorem distance_to_zero_iff_closed_rect :
    (∀ (b : BoundingBox) (p : Vec2),
      b.distance_to p = 0 ↔
        (b.min_point.x ≤ p.x ∧ p.x ≤ b.max_point.x ∧
         b.min_point.y ≤ p.y ∧ p.y ≤ b.max_point.y)) ∧
    (∀ b : BoundingBox, b.ordered →
      b.distance_to b.min_point = 0 ∧ b.distance_to b.max_point = 0 ∧
      b.contains_point b.min_point = false ∧ b.contains_point b.max_point = false) := by
  refine ⟨distance_to_eq_zero_iff, ?_⟩
  intro b hb
  refine ⟨(distance_to_eq_zero_iff b b.min_point).mpr ⟨le_refl _, hb.1, le_refl _, hb.2⟩,
    (distance_to_eq_zero_iff b b.max_point).mpr ⟨hb.1, le_refl _, hb.2, le_refl _⟩, ?_, ?_⟩
  · simp [BoundingBox.contains_point]
  · simp [BoundingBox.contains_point]

/-- C10 witness: at the box with corners (0,0) and (4,3), the min corner has
distance 0 yet is not contained. -/
theorem distance_to_zero_iff_witness :
    BoundingBox.ordered ⟨⟨0, 0⟩, ⟨4, 3⟩⟩ ∧
    BoundingBox.distance_to ⟨⟨0, 0⟩, ⟨4, 3⟩⟩ ⟨0, 0⟩ = 0 ∧
    BoundingBox.contains_point ⟨⟨0, 0⟩, ⟨4, 3⟩⟩ ⟨0, 0⟩ = false := by
  have hb : BoundingBox.ordered ⟨⟨0, 0⟩, ⟨4, 3⟩⟩ := ⟨by norm_num, by norm_num⟩
  have h := distance_to_zero_iff_closed_rect.2 _ hb
  exact ⟨hb, h.1, h.2.2.1⟩

lemma sq_gap_low {lo hi t : ℚ} (h1 : t ≤ lo) (h2 : lo ≤ hi) :
    (lo - t) ^ 2 ≤ (hi - t) ^ 2 := by
  nlinarith [mul_nonneg (sub_nonneg.mpr h2) (sub_nonneg.mpr h1), sq_nonneg (hi - lo)]

lemma sq_gap_high {lo hi t : ℚ} (h1 : hi ≤ t) (h2 : lo ≤ hi) :
    (hi - t) ^ 2 ≤ (lo - t) ^ 2 := by
  nlinarith [mul_nonneg (sub_nonneg.mpr h2) (sub_nonneg.mpr h1), sq_nonneg (hi - lo)]

lemma Vec2.distance_to_mono (a c p : Vec2)
    (hx : (a.x - p.x) ^ 2 ≤ (c.x - p.x) ^ 2) (hy : (a.y - p.y) ^ 2 ≤ (c.y - p.y) ^ 2) :
    a.distance_to p ≤ c.distance_to p := by
  unfold Vec2.distance_to
  apply Real.sqrt_le_sqrt
  have hx2 : ((a.x - p.x : ℚ) : ℝ) ^ 2 ≤ ((c.x - p.x : ℚ) : ℝ) ^ 2 := by exact_mod_cast hx
  have hy2 : ((a.y - p.y : ℚ) : ℝ) ^ 2 ≤ ((c.y - p.y : ℚ) : ℝ) ^ 2 := by exact_mod_cast hy
  exact add_le_add hx2 hy2

/-- C2: for an ordered box, `distance_to` returns 0 on the closed rectangle;
when both coordinates fall outside the box's extents it returns the Euclidean
distance to the nearest of the four corners (stated as the minimum over the
corner distances); and when exactly one coordinate falls outside it returns
the perpendicular distance to the nearest edge along that axis only (the
smaller of the two absolute gaps on the outside axis). -/
theorem distance_to_nine_region_spec (b : BoundingBox)
    (hx : b.min_point.x ≤ b.max_point.x) (hy : b.min_point.y ≤ b.max_point.y)
    (p : Vec2) :
    ((b.min_point.x ≤ p.x ∧ p.x ≤ b.max_point.x ∧
      b.min_point.y ≤ p.y ∧ p.y ≤ b.max_point.y) → b.distance_to p = 0) ∧
    (((p.x < b.min_point.x ∨ b.max_point.x < p.x) ∧
      (p.y < b.min_point.y ∨ b.max_point.y < p.y)) →
      b.distance_to p =
        min (min (b.min_point.distance_to p)
              ((Vec2.mk b.min_point.x b.max_point.y).distance_to p))
            (min ((Vec2.mk b.max_point.x b.min_point.y).distance_to p)
              (b.max_point.distance_to p))) ∧
    (((p.x < b.min_point.x ∨ b.max_point.x < p.x) ∧
      b.min_point.y ≤ p.y ∧ p.y ≤ b.max_point.y) →
      b.distance_to p = ((min |p.x - b.min_point.x| |p.x - b.max_point.x| : ℚ) : ℝ)) ∧
    ((b.min_point.x ≤ p.x ∧ p.x ≤ b.max_point.x ∧
      (p.y < b.min_point.y ∨ b.max_point.y < p.y)) →
      b.distance_to p = ((min |p.y - b.min_point.y| |p.y - b.max_point.y| : ℚ) : ℝ)) := by
  refine ⟨fun hm => (distance_to_eq_zero_iff b p).mpr hm, ?_, ?_, ?_⟩
  · rintro ⟨hx1 | hx2, hy1 | hy2⟩
    · have e1 : b.min_point.distance_to p ≤
          (Vec2.mk b.min_point.x b.max_point.y).distance_to p :=
        Vec2.distance_to_mono _ _ _ (le_refl _) (sq_gap_low hy1.le hy)
      have e2 : b.min_point.distance_to p ≤
          (Vec2.mk b.max_point.x b.min_point.y).distance_to p :=
        Vec2.distance_to_mono _ _ _ (sq_gap_low hx1.le hx) (le_refl _)
      have e3 : b.min_point.distance_to p ≤ b.max_point.distance_to p :=
        Vec2.distance_to_mono _ _ _ (sq_gap_low hx1.le hx) (sq_gap_low hy1.le hy)
      unfold BoundingBox.distance_to
      rw [if_pos hx1, if_pos hy1, min_eq_left e1, min_eq_left (le_min e2 e3)]
    · have e1 : (Vec2.mk b.min_point.x b.max_point.y).distance_to p ≤
          b.min_point.distance_to p :=
        Vec2.distance_to_mono _ _ _ (le_refl _) (sq_gap_high hy2.le hy)
      have e2 : (Vec2.mk b.min_point.x b.max_point.y).distance_to p ≤
          (Vec2.mk b.max_point.x b.min_point.y).distance_to p :=
        Vec2.distance_to_mono _ _ _ (sq_gap_low hx1.le hx) (sq_gap_high hy2.le hy)
      have e3 : (Vec2.mk b.min_point.x b.max_point.y).distance_to p ≤
          b.max_point.distance_to p :=
        Vec2.distance_to_mono _ _ _ (sq_gap_low hx1.le hx) (le_refl _)
      unfold BoundingBox.distance_to
      rw [if_pos hx1, if_neg (not_lt.mpr (hy.trans hy2.le)), if_neg (not_le.mpr hy2),
        min_eq_right e1, min_eq_left (le_min e2 e3)]
    · have e1 : (Vec2.mk b.max_point.x b.min_point.y).distance_to p ≤
          b.min_point.distance_to p :=
        Vec2.distance_to_mono _ _ _ (sq_gap_high hx2.le hx) (le_refl _)
      have e2 : (Vec2.mk b.max_point.x b.min_point.y).distance_to p ≤
          (Vec2.mk b.min_point.x b.max_point.y).distance_to p :=
        Vec2.distance_to_mono _ _ _ (sq_gap_high hx2.le hx) (sq_gap_low hy1.le hy)
      have e3 : (Vec2.mk b.max_point.x b.min_point.y).distance_to p ≤
          b.max_point.distance_to p :=
        Vec2.distance_to_mono _ _ _ (le_refl _) (sq_gap_low hy1.le hy)
      unfold BoundingBox.distance_to
      rw [if_neg (not_lt.mpr (hx.trans hx2.le)), if_neg (not_le.mpr hx2), if_pos hy1,
        min_eq_left e3, min_eq_right (le_min e1 e2)]
    · have e1 : b.max_point.distance_to p ≤ b.min_point.distance_to p :=
        Vec2.distance_to_mono _ _ _ (sq_gap_high hx2.le hx) (sq_gap_high hy2.le hy)
      have e2 : b.max_point.distance_to p ≤
          (Vec2.mk b.min_point.x b.max_point.y).distance_to p :=
        Vec2.distance_to_mono _ _ _ (sq_gap_high hx2.le hx) (le_refl _)
      have e3 : b.max_point.distance_to p ≤
          (Vec2.mk b.max_point.x b.min_point.y).distance_to p :=
        Vec2.distance_to_mono _ _ _ (le_refl _) (sq_gap_high hy2.le hy)
      unfold BoundingBox.distance_to
      rw [if_neg (not_lt.mpr (hx.trans hx2.le)), if_neg (not_le.mpr hx2),
        if_neg (not_lt.mpr (hy.trans hy2.le)), if_neg (not_le.mpr hy2),
        min_eq_right e3, min_eq_right (le_min e1 e2)]
  · rintro ⟨hx1 | hx2, hy1, hy2⟩
    · have e1 : |p.x - b.min_point.x| = b.min_point.x - p.x := by
        rw [abs_sub_comm]; exact abs_of_pos (by linarith)
      have e2 : |p.x - b.max_point.x| = b.max_point.x - p.x := by
        rw [abs_sub_comm]; exact abs_of_pos (by linarith)
      unfold BoundingBox.distance_to
      rw [if_pos hx1, if_neg (not_lt.mpr hy1), if_pos hy2, e1, e2,
        min_eq_left (by linarith)]
    · have e1 : |p.x - b.min_point.x| = p.x - b.min_point.x :=
        abs_of_pos (by linarith)
      have e2 : |p.x - b.max_point.x| = p.x - b.max_point.x :=
        abs_of_pos (by linarith)
      unfold BoundingBox.distance_to
      rw [if_neg (not_lt.mpr (hx.trans hx2.le)), if_neg (not_le.mpr hx2),
        if_neg (not_lt.mpr hy1), if_pos hy2, e1, e2, min_eq_right (by linarith)]
  · rintro ⟨hx1, hx2, hy1 | hy2⟩
    · have e1 : |p.y - b.min_point.y| = b.min_point.y - p.y := by
        rw [abs_sub_comm]; exact abs_of_pos (by linarith)
      have e2 : |p.y - b.max_point.y| = b.max_point.y - p.y := by
        rw [abs_sub_comm]; exact abs_of_pos (by linarith)
      unfold BoundingBox.distance_to
      rw [if_neg (not_lt.mpr hx1), if_pos hx2, if_pos hy1, e1, e2,
        min_eq_left (by linarith)]
    · have e1 : |p.y - b.min_point.y| = p.y - b.min_point.y :=
        abs_of_pos (by linarith)
      have e2 : |p.y - b.max_point.y| = p.y - b.max_point.y :=
        abs_of_pos (by linarith)
      unfold BoundingBox.distance_to
      rw [if_neg (not_lt.mpr hx1), if_pos hx2, if_neg (not_lt.mpr (hy.trans hy2.le)),
        if_neg (not_le.mpr hy2), e1, e2, min_eq_right (by linarith)]

/-- C2 witness: the nine-region description instantiated at the ordered box
with corners (0,0), (4,3): the interior point (1,1) is at distance 0 and the
point (6,1), outside on the x axis only, is at perpendicular distance 2 from
the right edge. -/
theorem distance_to_nine_region_witness :
    (0 : ℚ) ≤ 4 ∧ (0 : ℚ) ≤ 3 ∧
    BoundingBox.distance_to ⟨⟨0, 0⟩, ⟨4, 3⟩⟩ ⟨1, 1⟩ = 0 ∧
    BoundingBox.distance_to ⟨⟨0, 0⟩, ⟨4, 3⟩⟩ ⟨6, 1⟩ =
      ((min |(6 : ℚ) - 0| |(6 : ℚ) - 4| : ℚ) : ℝ) := by
  refine ⟨by norm_num, by norm_num, ?_, ?_⟩
  · exact (distance_to_nine_region_spec ⟨⟨0, 0⟩, ⟨4, 3⟩⟩ (by norm_num) (by norm_num)
      ⟨1, 1⟩).1 (by norm_num)
  · exact (distance_to_nine_region_spec ⟨⟨0, 0⟩, ⟨4, 3⟩⟩ (by norm_num) (by norm_num)
      ⟨6, 1⟩).2.2.1 ⟨Or.inr (by norm_num), by norm_num, by norm_num⟩
